import Mathlib

/-!
Shallow embedding of the session-aware retrieval-and-generation engine of the
Study-Buddy backend (`app/services/vector_store.py`, `app/services/rag_service.py`,
`app/utils/rate_limiter.py`), together with proofs about the claims of its
specification.  Scores and distances are modelled as rationals, text as
`String` / `List Char`.
-/

namespace StudyBuddy

/-- Chunk metadata, the fields of the metadata dict that the retrieval core
reads (`uuid_filename`, `filename`, `document_id`, `file_type`). -/
structure ChunkMeta where
  uuid_filename : String
  filename : String
  document_id : String
  file_type : String
deriving DecidableEq, Repr

/-- A stored chunk: text plus metadata, as held by the Chroma collection. -/
structure Chunk where
  content : String
  metadata : ChunkMeta
deriving DecidableEq, Repr

/-- `similarity_search` result dict: `{"content": ..., "metadata": ..., "score": ...}`. -/
structure SearchResult where
  content : String
  metadata : ChunkMeta
  score : ℚ
deriving DecidableEq, Repr

/-- An equality-only metadata filter, the shape actually handed to the
underlying Chroma index (`filter=single_filter` / `filter=filter_dict` where
every value is a plain string). -/
structure EqFilter where
  uuid_filename : Option String := none
  filename : Option String := none
  file_type : Option String := none
deriving DecidableEq, Repr

/-- Whether a chunk's metadata satisfies every equality constraint of the filter. -/
def EqFilter.matches (f : EqFilter) (m : ChunkMeta) : Bool :=
  (match f.uuid_filename with | some u => m.uuid_filename == u | none => true) &&
  (match f.filename with | some v => m.filename == v | none => true) &&
  (match f.file_type with | some v => m.file_type == v | none => true)

/-- The value stored under `"uuid_filename"` in a filter dict built by
`_perform_hybrid_search`: either a plain string or `{"$in": [...]}`. -/
inductive UuidFilter where
  | eqv (u : String)
  | inSet (us : List String)
deriving DecidableEq, Repr

/-- A metadata filter dict as passed to
`EnhancedVectorStoreService.similarity_search` (`filter_dict`). -/
structure FilterDict where
  uuid_filename : Option UuidFilter := none
  filename : Option String := none
  file_type : Option String := none
deriving DecidableEq, Repr

/-- Modelled from the spec: the underlying index capability
`similaritySearchWithScore(query, k, filter) -> list of (text, metadata, distance)`
(`Chroma.similarity_search_with_score`, external to this repository).  It
returns the stored chunks that match the metadata filter, ordered by ascending
raw distance (given here by the embedding-distance assignment `dist`),
truncated to `k`. -/
def similarity_search_with_score (store : List Chunk) (dist : Chunk → ℚ)
    (k : ℕ) (filt : Option EqFilter) : List (Chunk × ℚ) :=
  (List.insertionSort (fun a b : Chunk × ℚ => a.2 ≤ b.2)
    ((store.filter (fun c => match filt with
      | some f => f.matches c.metadata
      | none => true)).map (fun c => (c, dist c)))).take k

/-- Score normalization of `similarity_search`: raw values above `1.0` are
treated as distances and converted via `1/(1+score)`, bounded values pass
through. -/
def normalizeScore (s : ℚ) : ℚ :=
  if s > 1 then 1 / (1 + s) else s

/-- The `k = min(k, total_docs)` adjustment of
`EnhancedVectorStoreService.similarity_search`: the number of results
requested from the underlying index. -/
def clampedK (store : List Chunk) (k : ℕ) : ℕ :=
  min k store.length

/-- The single-uuid filter used inside the `$in` branch:
`single_filter = {k: v for k, v in filter_dict.items() if k != "uuid_filename"}`
plus `single_filter["uuid_filename"] = uuid_filename`. -/
def FilterDict.singleFilter (fd : FilterDict) (u : String) : EqFilter :=
  { uuid_filename := some u, filename := fd.filename, file_type := fd.file_type }

/-- The equality filter passed through unchanged when `uuid_filename` is
absent or a plain string. -/
def FilterDict.plainFilter (fd : FilterDict) (u : Option String) : EqFilter :=
  { uuid_filename := u, filename := fd.filename, file_type := fd.file_type }

/-- `EnhancedVectorStoreService.similarity_search`: returns `[]` on an empty
store, clamps `k` to the store size, handles the `{"$in": [...]}` filter by
issuing one filtered query per uuid, concatenating, sorting by raw score
ascending and truncating to `k`, then normalizes scores into result dicts. -/
def similarity_search (store : List Chunk) (dist : Chunk → ℚ)
    (k : ℕ) (filter_dict : Option FilterDict) : List SearchResult :=
  if store.length = 0 then []
  else
    let k' := clampedK store k
    let results : List (Chunk × ℚ) :=
      match filter_dict with
      | some fd =>
        match fd.uuid_filename with
        | some (UuidFilter.inSet us) =>
          (List.insertionSort (fun a b : Chunk × ℚ => a.2 ≤ b.2)
            (us.flatMap (fun u =>
              similarity_search_with_score store dist k' (some (fd.singleFilter u))))).take k'
        | some (UuidFilter.eqv u) =>
          similarity_search_with_score store dist k' (some (fd.plainFilter (some u)))
        | none =>
          similarity_search_with_score store dist k' (some (fd.plainFilter none))
      | none => similarity_search_with_score store dist k' none
    results.map (fun p =>
      { content := p.1.content, metadata := p.1.metadata, score := normalizeScore p.2 })

/-- The session filter dict built by `_perform_hybrid_search` from a truthy
`session_document_filter`: equality for a single uuid, `$in` for several. -/
def sessionFilterDict (u : String) (rest : List String) : FilterDict :=
  if rest.isEmpty then { uuid_filename := some (UuidFilter.eqv u) }
  else { uuid_filename := some (UuidFilter.inSet (u :: rest)) }

/-- `EnhancedRAGService._perform_hybrid_search`: a truthy (non-empty) session
document filter wins and suppresses query-derived metadata extraction;
otherwise the (externally produced) query metadata filter `queryFilter` is
used.  The search itself is delegated to `similarity_search`. -/
def perform_hybrid_search (store : List Chunk) (dist : Chunk → ℚ) (k : ℕ)
    (session_document_filter : Option (List String))
    (queryFilter : Option FilterDict) : List SearchResult :=
  match session_document_filter with
  | some (u :: rest) => similarity_search store dist k (some (sessionFilterDict u rest))
  | _ => similarity_search store dist k queryFilter

/-! ### Re-ranking (`EnhancedRAGService._re_rank_results`) -/

/-- Python `\s` whitespace (ASCII range). -/
def isPyWs (c : Char) : Bool :=
  c == ' ' || c == '\t' || c == '\n' || c == '\r' || c == '\x0b' || c == '\x0c'

/-- Lower-case a character list (Python `str.lower()` on ASCII text). -/
def lowerChars (s : List Char) : List Char :=
  s.map Char.toLower

/-- Worker for Python `str.split()`, structurally recursive on a fuel bound
so that it reduces inside the kernel; the fuel never runs out when it starts
at the length of the input. -/
def splitWsF : ℕ → List Char → List (List Char)
  | 0, _ => []
  | _ + 1, [] => []
  | f + 1, c :: rest =>
    if isPyWs c then splitWsF f rest
    else ((c :: rest).takeWhile (fun x => !isPyWs x)) ::
      splitWsF f (rest.dropWhile (fun x => !isPyWs x))

/-- Python `str.split()` with no argument: split on whitespace runs,
discarding empty pieces. -/
def splitWs (s : List Char) : List (List Char) :=
  splitWsF s.length s

/-- `set(query.lower().split())` viewed as a duplicate-free list of tokens. -/
def queryTermsOf (query : String) : List (List Char) :=
  (splitWs (lowerChars query.data)).dedup

/-- Whether `needle` starts `hay`. -/
def startsWithChars : List Char → List Char → Bool
  | [], _ => true
  | _ :: _, [] => false
  | a :: as, b :: bs => a == b && startsWithChars as bs

/-- Python's `needle in hay` substring test on character lists. -/
def subOccurs (needle : List Char) : List Char → Bool
  | [] => needle.isEmpty
  | c :: rest => startsWithChars needle (c :: rest) || subOccurs needle rest

/-- `content.split("\n\n")[0]`: the text before the first blank-line
separator (the whole text when none occurs). -/
def upToDoubleNl : List Char → List Char
  | [] => []
  | '\n' :: '\n' :: _ => []
  | c :: rest => c :: upToDoubleNl rest

/-- The per-result score adjustment of `_re_rank_results`:
`result["score"] + keyword_matches * 0.05 + first_para_matches * 0.1`,
capped at `1.0`; `keyword_matches` counts the query terms occurring as
substrings of the lower-cased content, `first_para_matches` the same over the
first paragraph.  Content and metadata are untouched. -/
def adjustScore (terms : List (List Char)) (r : SearchResult) : SearchResult :=
  let content := lowerChars r.content.data
  let keyword_matches := (terms.filter (fun t => subOccurs t content)).length
  let first_para := upToDoubleNl content
  let first_para_matches := (terms.filter (fun t => subOccurs t first_para)).length
  { r with
    score := min (r.score + (keyword_matches : ℚ) * (5 / 100) +
      (first_para_matches : ℚ) * (1 / 10)) 1 }

/-- `EnhancedRAGService._re_rank_results`: adjust every score, then sort by
adjusted score in descending order (Python's sort is stable; so is insertion
sort). -/
def re_rank_results (results : List SearchResult) (query : String) : List SearchResult :=
  match results with
  | [] => []
  | _ =>
    List.insertionSort (fun a b : SearchResult => b.score ≤ a.score)
      (results.map (adjustScore (queryTermsOf query)))

/-! ### Context assembly (`generate_response`, lines 532-560) -/

/-- Per-chunk cap: `if len(content) > 500: content = content[:500] + "..."`. -/
def truncateContent (s : List Char) : List Char :=
  if s.length > 500 then s.take 500 ++ ('.' :: '.' :: '.' :: []) else s

/-- The score rounded to a whole number of hundredths, the numeric part of
`{score:.2f}`. -/
def hundredths (q : ℚ) : ℕ :=
  (⌊q * 100 + 1 / 2⌋).toNat

/-- Rendering of `n` hundredths as a two-decimal numeral. -/
def fmt2n (n : ℕ) : List Char :=
  Nat.toDigits 10 (n / 100) ++ '.' ::
    (if n % 100 < 10 then '0' :: Nat.toDigits 10 (n % 100) else Nat.toDigits 10 (n % 100))

/-- Two-decimal formatting of a score, the `{score:.2f}` in the provenance
label (decimal rounding stands in for the float formatting; only its
rendered length matters to the budget claims). -/
def fmt2 (q : ℚ) : List Char :=
  fmt2n (hundredths q)

/-- One labeled chunk:
`f"[Source: {filename} | Relevance: {score:.2f}]\n{content}"` with the
per-chunk cap applied. -/
def chunkTextOf (r : SearchResult) : List Char :=
  "[Source: ".data ++ r.metadata.filename.data ++ " | Relevance: ".data ++
    fmt2 r.score ++ ']' :: '\n' :: truncateContent r.content.data

/-- The context-packing loop: append labeled chunks in order, tracking the
total of their lengths; as soon as the next chunk would push that total past
2000, `break` (dropping all remaining chunks). -/
def contextParts : List SearchResult → ℕ → List (List Char)
  | [], _ => []
  | r :: rest, total =>
    let ct := chunkTextOf r
    if total + ct.length > 2000 then []
    else ct :: contextParts rest (total + ct.length)

/-- The delimiter of `"\n\n---\n\n".join(context_parts)`. -/
def contextSep : List Char := "\n\n---\n\n".data

/-- The assembled context string. -/
def assembleContext (results : List SearchResult) : List Char :=
  contextSep.intercalate (contextParts results 0)

/-! ### Sentence-segmented streaming (`generate_response`, lines 606-648) -/

/-- Sentence-ending punctuation of the split pattern `(?<=[.!?])\s+`. -/
def sentPunct (c : Char) : Bool := c == '.' || c == '!' || c == '?'

/-- Worker for `re.split(r'(?<=[.!?])\s+', buffer)`: a maximal whitespace run
immediately preceded by sentence punctuation is removed and separates parts
(`acc` holds the current part reversed, so its head is the previous
character).  Structurally recursive on a fuel bound so that it reduces
inside the kernel; the fuel never runs out when it starts at the length of
the input. -/
def splitSentGo : ℕ → List Char → List Char → List (List Char)
  | 0, s, acc => [acc.reverse ++ s]
  | _ + 1, [], acc => [acc.reverse]
  | f + 1, c :: rest, acc =>
    if isPyWs c && (match acc with | p :: _ => sentPunct p | [] => false)
    then acc.reverse :: splitSentGo f (rest.dropWhile isPyWs) []
    else splitSentGo f rest (c :: acc)

/-- `re.split(r'(?<=[.!?])\s+', s)`. -/
def splitSentences (s : List Char) : List (List Char) :=
  splitSentGo s.length s []

/-- Python `str.strip()`. -/
def stripChars (s : List Char) : List Char :=
  ((s.dropWhile isPyWs).reverse.dropWhile isPyWs).reverse

/-- Flushing of the complete sentences `sentences[:-1]`: skip blank ones,
emit `sentence.strip() + " "`. -/
def flushSentences (parts : List (List Char)) : List String :=
  parts.filterMap (fun s =>
    let t := stripChars s
    if t.isEmpty then none else some (String.mk (t ++ [' '])))

/-- One iteration of the streaming loop: append the incoming chunk to the
buffer, split into sentences; with at least two parts, flush all but the
last and keep the last as the new buffer, otherwise keep accumulating. -/
def stepChunk (buffer chunk : List Char) : List String × List Char :=
  let b := buffer ++ chunk
  let sentences := splitSentences b
  if sentences.length > 1 then
    (flushSentences sentences.dropLast, sentences.getLastD [])
  else ([], b)

/-- The whole `async for chunk in chain.astream(...)` loop, threading the
buffer and collecting the emitted response contents. -/
def runChunks (buffer : List Char) : List (List Char) → List String × List Char
  | [] => ([], buffer)
  | c :: cs =>
    let step := stepChunk buffer c
    let rest := runChunks step.2 cs
    (step.1 ++ rest.1, rest.2)

/-- The final `if buffer.strip(): yield buffer.strip()` flush (no trailing
space here). -/
def finalFlush (buffer : List Char) : List String :=
  let t := stripChars buffer
  if t.isEmpty then [] else [String.mk t]

/-- Response contents emitted during the streaming loop for a given sequence
of provider chunks. -/
def midResponses (chunks : List String) : List String :=
  (runChunks [] (chunks.map String.data)).1

/-- All response contents of a completed stream: loop flushes plus the final
buffer flush. -/
def streamResponses (chunks : List String) : List String :=
  let run := runChunks [] (chunks.map String.data)
  run.1 ++ finalFlush run.2

/-! ### Session scope resolution (`_get_session_document_filter`) -/

/-- Outcome of the database lookup performed by
`_get_session_document_filter`: session missing, session found with its
associated document uuids, or the lookup raising. -/
inductive SessionLookup where
  | missing
  | found (docs : List String)
  | raises
deriving DecidableEq, Repr

/-- `EnhancedRAGService._get_session_document_filter`: `None` when the
session does not exist, when it has no associated documents, or when the
lookup raises; otherwise the list of document uuids. -/
def get_session_document_filter (lk : SessionLookup) : Option (List String) :=
  match lk with
  | SessionLookup.missing => none
  | SessionLookup.raises => none
  | SessionLookup.found docs => if docs.isEmpty then none else some docs

/-! ### The `generate_response` event/action trace -/

/-- A server-sent event of the stream, by its `type` tag. -/
inductive Event where
  | warning (content : String)
  | response (content : String)
  | sources (sources : List (String × String))
  | done
  | error (content : String)
deriving DecidableEq, Repr

/-- Observable actions of one `generate_response` execution: recording a call
on the Gemini rate limiter (`gemini_limiter.add_call()`), hitting the vector
store (`similarity_search`), issuing the provider streaming call
(`chain.astream`), and emitting an event. -/
inductive Action where
  | addCall
  | retrieve
  | providerCall
  | emit (e : Event)
deriving DecidableEq, Repr

/-- How the provider token stream ends: normally, with a rate-limit-shaped
exception, or with another exception. -/
inductive StreamEnd where
  | ok
  | rateLimitFailure
  | otherFailure
deriving DecidableEq, Repr

/-- Environment of one `generate_response` execution: the rate-limiter and
token-handler states at entry, the store contents and distance assignment,
the resolved session filter and (externally produced) query metadata filter,
whether each search attempt raises (`some b`, `b` = rate-limit-shaped),
whether the model is initialized, and the provider stream contents/end. -/
structure GenEnv where
  rateLimitedAtStart : Bool
  tokenWarning : Bool
  store : List Chunk
  dist : Chunk → ℚ
  contextWindow : ℕ
  sessionFilter : Option (List String)
  queryFilter : Option FilterDict
  searchFailure1 : Option Bool
  searchFailure2 : Option Bool
  modelOk : Bool
  chunks : List String
  streamEnd : StreamEnd
  question : String

/-- The `sources` payload: up to 5 `{filename, document_id}` pairs from the
re-ranked results. -/
def sourceList (results : List SearchResult) : List (String × String) :=
  (results.take 5).map (fun r => (r.metadata.filename, r.metadata.document_id))

/-- Actions of the generation phase, given the re-ranked (non-empty) result
list: provider call, sentence-level response events, then either a terminal
error (mid-stream failure) or the final flush, sources and done events.  A
missing model raises at `get_current_model()` and surfaces as a terminal
error. -/
def streamActions (env : GenEnv) (reranked : List SearchResult) : List Action :=
  if env.modelOk then
    Action.providerCall ::
      ((midResponses env.chunks).map (fun s => Action.emit (Event.response s))) ++
      (match env.streamEnd with
       | StreamEnd.rateLimitFailure =>
          [Action.emit (Event.error "Gemini API rate limit reached. Please wait a moment and try again.")]
       | StreamEnd.otherFailure => [Action.emit (Event.error "Error generating response")]
       | StreamEnd.ok =>
          ((finalFlush (runChunks [] (env.chunks.map String.data)).2).map
            (fun s => Action.emit (Event.response s))) ++
          [Action.emit (Event.sources (sourceList reranked)), Action.emit Event.done])
  else [Action.emit (Event.error "Error generating response")]

/-- After a successful search: re-rank; an empty result set yields the
terminal no-documents error, otherwise context assembly (no events) and the
generation phase. -/
def afterResults (env : GenEnv) (results : List SearchResult) : List Action :=
  let reranked := re_rank_results results env.question
  if reranked.isEmpty then
    [Action.emit (Event.error "No relevant documents found in the knowledge base.")]
  else streamActions env reranked

/-- One `_perform_hybrid_search` attempt: with no truthy session filter the
rate-limited `_extract_query_metadata` records an extra limiter call before
the vector store is hit. -/
def searchAttemptActions (env : GenEnv) : List Action :=
  (match env.sessionFilter with
   | some (_ :: _) => []
   | _ => [Action.addCall]) ++ [Action.retrieve]

/-- The search a successful attempt performs. -/
def envSearch (env : GenEnv) : List SearchResult :=
  perform_hybrid_search env.store env.dist env.contextWindow env.sessionFilter env.queryFilter

/-- The action trace of `EnhancedRAGService.generate_response` (the provider
is forced to Gemini): optional rate-limit warning, the unconditional
`gemini_limiter.add_call()`, optional token-handler warning, the first search
attempt (rate-limit failures are retried once after a warning, other
failures and failing retries surface as a terminal pipeline error), then the
post-search phase. -/
def generateResponseActions (env : GenEnv) : List Action :=
  (if env.rateLimitedAtStart then
    [Action.emit (Event.warning "Gemini API rate limit reached. Please wait before trying again.")]
   else []) ++
  ([Action.addCall] ++
    ((if env.tokenWarning then
      [Action.emit (Event.warning "Approaching Gemini API limits. Slowing down requests.")]
     else []) ++
      (searchAttemptActions env ++
        (match env.searchFailure1 with
         | none => afterResults env (envSearch env)
         | some true =>
            [Action.emit (Event.warning "Rate limit reached during search. Waiting and retrying...")] ++
            (searchAttemptActions env ++
              (match env.searchFailure2 with
               | none => afterResults env (envSearch env)
               | some _ => [Action.emit (Event.error "Error in RAG pipeline")]))
         | some false => [Action.emit (Event.error "Error in RAG pipeline")]))))

/-- The events emitted by a list of actions. -/
def emittedEvents (acts : List Action) : List Event :=
  acts.filterMap (fun a =>
    match a with
    | Action.emit e => some e
    | _ => none)

/-- The event stream of one execution: the emitted events of the action
trace. -/
def generateResponseEvents (env : GenEnv) : List Event :=
  emittedEvents (generateResponseActions env)

/-! ### Vocabulary used only to state claims -/

/-- Whether a chunk's metadata satisfies a full filter dict, reading `$in`
as set membership — the "chunks matching the filter" of the k-clamping
claim. -/
def FilterDict.matchesMeta (fd : FilterDict) (m : ChunkMeta) : Bool :=
  (match fd.uuid_filename with
   | some (UuidFilter.eqv u) => m.uuid_filename == u
   | some (UuidFilter.inSet us) => us.contains m.uuid_filename
   | none => true) &&
  (match fd.filename with | some v => m.filename == v | none => true) &&
  (match fd.file_type with | some v => m.file_type == v | none => true)

/-- `totalChunksMatchingFilter`: how many stored chunks match the filter. -/
def matchingCount (store : List Chunk) (fd : Option FilterDict) : ℕ :=
  (store.filter (fun c =>
    match fd with | some f => f.matchesMeta c.metadata | none => true)).length

/-- The re-ranked score as the claim words it: overlap counts are
case-insensitive token intersections between the question's tokens and the
tokens of (respectively) the whole chunk text and its first paragraph. -/
def specAdjustedScore (query : String) (r : SearchResult) : ℚ :=
  let terms := queryTermsOf query
  let contentTokens := splitWs (lowerChars r.content.data)
  let firstParaTokens := splitWs (upToDoubleNl (lowerChars r.content.data))
  let km := (terms.filter (fun t => contentTokens.contains t)).length
  let fm := (terms.filter (fun t => firstParaTokens.contains t)).length
  min (r.score + (km : ℚ) * (5 / 100) + (fm : ℚ) * (1 / 10)) 1

/-- Tag tests on events. -/
def Event.isResponse : Event → Bool
  | Event.response _ => true
  | _ => false

/-- Whether an event is a warning. -/
def Event.isWarning : Event → Bool
  | Event.warning _ => true
  | _ => false

/-- Whether an event is an error. -/
def Event.isError : Event → Bool
  | Event.error _ => true
  | _ => false

/-- The success half of the claimed stream shape: zero or more responses,
then exactly one sources event followed by exactly one done event. -/
def successShape : List Event → Bool
  | [Event.sources _, Event.done] => true
  | e :: rest => e.isResponse && successShape rest
  | _ => false

/-- The error half of the claimed stream shape: the error event is the last
event of the stream and no error precedes it. -/
def errorShape : List Event → Bool
  | [Event.error _] => true
  | e :: rest => !e.isError && errorShape rest
  | [] => false

/-- The event-stream shape asserted by the ordering claim. -/
def claimedShape (tr : List Event) : Bool :=
  successShape tr || errorShape tr

/-- Number of `gemini_limiter.add_call()` recordings in an action trace. -/
def countAddCalls (acts : List Action) : ℕ :=
  (acts.filter (fun a => match a with | Action.addCall => true | _ => false)).length

/-- Number of provider streaming calls in an action trace. -/
def countProviderCalls (acts : List Action) : ℕ :=
  (acts.filter (fun a => match a with | Action.providerCall => true | _ => false)).length

/-- Whether every `add_call` recording is immediately followed by the
provider invocation, as the admission-timing claim demands. -/
def addCallsImmediatelyBeforeProvider : List Action → Bool
  | [] => true
  | Action.addCall :: rest =>
    (match rest with | Action.providerCall :: _ => true | _ => false) &&
      addCallsImmediatelyBeforeProvider rest
  | _ :: rest => addCallsImmediatelyBeforeProvider rest

/-- How many `_perform_hybrid_search` attempts the execution makes (the
first one, plus one retry after a rate-limit-shaped failure). -/
def numSearchAttempts (env : GenEnv) : ℕ :=
  match env.searchFailure1 with
  | some true => 2
  | _ => 1

/-- Truthiness of `session_document_filter` in Python. -/
def sessionFilterTruthy (env : GenEnv) : Bool :=
  match env.sessionFilter with
  | some (_ :: _) => true
  | _ => false

/-! ### Concrete data for witnesses and counterexamples -/

/-- Metadata of a chunk of document `A`. -/
def exMetaA : ChunkMeta := ⟨"A", "a.pdf", "1", "pdf"⟩

/-- Metadata of a chunk of document `B`. -/
def exMetaB : ChunkMeta := ⟨"B", "b.pdf", "2", "pdf"⟩

/-- A three-chunk store: two chunks of document `A`, one of document `B`. -/
def exStore3 : List Chunk :=
  [⟨"alpha one", exMetaA⟩, ⟨"alpha two", exMetaA⟩, ⟨"beta", exMetaB⟩]

/-- A filter dict selecting document `B` only. -/
def exFilterB : FilterDict := { uuid_filename := some (UuidFilter.eqv "B") }

/-- A distance assignment that puts every chunk at distance zero. -/
def zeroDist : Chunk → ℚ := fun _ => 0

/-- A result whose content contains the query term `cat` only as a
substring of a longer token. -/
def rCat : SearchResult := ⟨"concatenation", exMetaA, 0⟩

/-- A result whose labeled chunk text is exactly 500 characters long
(30-character label plus 470 characters of content). -/
def r470 : SearchResult := ⟨String.mk (List.replicate 470 'a'), ⟨"A", "f", "1", "pdf"⟩, 0⟩

/-- Four copies of `r470`: labeled chunks sum to exactly the 2000-character
budget, so all four are packed. -/
def exResults4 : List SearchResult := [r470, r470, r470, r470]

/-- An environment that merely hits the entry rate-limit warning and then
runs an ordinary successful request. -/
def cexEnvC2 : GenEnv :=
  { rateLimitedAtStart := true, tokenWarning := false,
    store := [⟨"alpha one", exMetaA⟩], dist := zeroDist,
    contextWindow := 5, sessionFilter := some ["A"], queryFilter := none,
    searchFailure1 := none, searchFailure2 := none, modelOk := true,
    chunks := ["Hi"], streamEnd := StreamEnd.ok, question := "q" }

/-- An environment whose search matches nothing: the request records a
limiter call and terminates before any provider call. -/
def cexEnvC8 : GenEnv :=
  { rateLimitedAtStart := false, tokenWarning := false,
    store := [], dist := zeroDist,
    contextWindow := 5, sessionFilter := some ["A"], queryFilter := none,
    searchFailure1 := none, searchFailure2 := none, modelOk := true,
    chunks := [], streamEnd := StreamEnd.ok, question := "q" }

/-- A successful single-document environment parameterized by the provider
stream chunks, used for the sentence-segmentation claim. -/
def c7Env (chunks : List String) : GenEnv :=
  { rateLimitedAtStart := false, tokenWarning := false,
    store := [⟨"alpha one", exMetaA⟩], dist := zeroDist,
    contextWindow := 5, sessionFilter := some ["A"], queryFilter := none,
    searchFailure1 := none, searchFailure2 := none, modelOk := true,
    chunks := chunks, streamEnd := StreamEnd.ok, question := "q" }

/-! ### Prefix states of the sentence segmenter on the claim's text -/

/-- The text of the sentence-segmentation claim. -/
def sText : String := "Hello world. How are you? Fine."

/-- The claim's text as characters. -/
def sTextChars : List Char := sText.data

/-- A string cut into single-character chunks. -/
def charTokens (s : List Char) : List (List Char) := s.map (fun c => [c])

/-- The segmenter state (flushed responses, buffer) after feeding the first
`n` characters of the claim's text one character at a time. -/
def stateAt (n : ℕ) : List String × List Char :=
  runChunks [] (charTokens (sTextChars.take n))

/-- The slice of the claim's text from position `n` (inclusive) to `m`
(exclusive). -/
def segChars (n m : ℕ) : List Char :=
  (sTextChars.drop n).take (m - n)

/-- Exhaustive check that feeding any slice `[n, m)` of the claim's text to
the segmenter, starting from the state after `n` characters, lands exactly
in the state after `m` characters, and that the flushed responses grow by
appending. -/
def c7Check : Bool :=
  (List.range 32).all (fun n =>
    (List.range 32).all (fun m =>
      decide (m < n) ||
      (decide (stepChunk (stateAt n).2 (segChars n m) =
          ((stateAt m).1.drop (stateAt n).1.length, (stateAt m).2)) &&
        decide ((stateAt n).1 ++ (stateAt m).1.drop (stateAt n).1.length = (stateAt m).1))))

/-- Descending score order is total. -/
instance : IsTotal SearchResult (fun a b : SearchResult => b.score ≤ a.score) :=
  ⟨fun a b => le_total b.score a.score⟩

/-- Descending score order is transitive. -/
instance : IsTrans SearchResult (fun a b : SearchResult => b.score ≤ a.score) :=
  ⟨fun _ _ _ h1 h2 => le_trans h2 h1⟩

/-! ## Helper lemmas -/

theorem re_rank_results_eq (results : List SearchResult) (query : String) :
    re_rank_results results query =
      List.insertionSort (fun a b : SearchResult => b.score ≤ a.score)
        (results.map (adjustScore (queryTermsOf query))) := by
  cases results <;> rfl

theorem adjustScore_score_eq (terms : List (List Char)) (r : SearchResult) :
    (adjustScore terms r).score =
      min (r.score +
        ((terms.filter (fun t => subOccurs t (lowerChars r.content.data))).length : ℚ) *
          (5 / 100) +
        ((terms.filter
            (fun t => subOccurs t (upToDoubleNl (lowerChars r.content.data)))).length : ℚ) *
          (1 / 10)) 1 := rfl

theorem EqFilter.matches_spec {f : EqFilter} {m : ChunkMeta} (h : f.matches m = true) :
    (∀ u, f.uuid_filename = some u → m.uuid_filename = u) ∧
    (∀ v, f.filename = some v → m.filename = v) ∧
    (∀ v, f.file_type = some v → m.file_type = v) := by
  rw [EqFilter.matches] at h
  simp only [Bool.and_eq_true] at h
  obtain ⟨⟨h1, h2⟩, h3⟩ := h
  refine ⟨fun u hu => ?_, fun v hv => ?_, fun v hv => ?_⟩
  · rw [hu] at h1; simpa using h1
  · rw [hv] at h2; simpa using h2
  · rw [hv] at h3; simpa using h3

theorem mem_similarity_search_with_score {store : List Chunk} {dist : Chunk → ℚ}
    {k : ℕ} {filt : Option EqFilter} {p : Chunk × ℚ}
    (hp : p ∈ similarity_search_with_score store dist k filt) :
    p.1 ∈ store ∧ p.2 = dist p.1 ∧
      ∀ f, filt = some f → f.matches p.1.metadata = true := by
  rw [similarity_search_with_score] at hp
  have h1 := List.mem_of_mem_take hp
  have h2 := (List.perm_insertionSort _ _).mem_iff.mp h1
  obtain ⟨c, hc, hpc⟩ := List.mem_map.mp h2
  obtain ⟨hcs, hmatch⟩ := List.mem_filter.mp hc
  subst hpc
  refine ⟨hcs, rfl, fun f hf => ?_⟩
  rw [hf] at hmatch
  exact hmatch

theorem mem_similarity_search {store : List Chunk} {dist : Chunk → ℚ} {k : ℕ}
    {fd : Option FilterDict} {r : SearchResult}
    (hr : r ∈ similarity_search store dist k fd) :
    ∃ c ∈ store, r.content = c.content ∧ r.metadata = c.metadata ∧
      r.score = normalizeScore (dist c) ∧
      ∀ f, fd = some f →
        (∀ u, f.uuid_filename = some (UuidFilter.eqv u) →
          r.metadata.uuid_filename = u) ∧
        (∀ us, f.uuid_filename = some (UuidFilter.inSet us) →
          r.metadata.uuid_filename ∈ us) := by
  rw [similarity_search] at hr
  by_cases hlen : store.length = 0
  · simp [hlen] at hr
  · simp only [if_neg hlen] at hr
    obtain ⟨p, hp, hpr⟩ := List.mem_map.mp hr
    subst hpr
    match hfd : fd with
    | none =>
      obtain ⟨hps, hpd, _⟩ := mem_similarity_search_with_score hp
      exact ⟨p.1, hps, rfl, rfl, by rw [hpd], fun f hf => by cases hf⟩
    | some fd' =>
      match huu : fd'.uuid_filename with
      | some (UuidFilter.eqv u) =>
        simp only [huu] at hp
        obtain ⟨hps, hpd, hm⟩ := mem_similarity_search_with_score hp
        obtain ⟨hu, _, _⟩ := EqFilter.matches_spec (hm _ rfl)
        refine ⟨p.1, hps, rfl, rfl, by rw [hpd], fun f hf => ?_⟩
        obtain rfl : fd' = f := by simpa using hf
        refine ⟨fun u' hu' => ?_, fun us hus => ?_⟩
        · rw [huu] at hu'
          have he : u = u' := by simpa using hu'
          subst he
          exact hu u rfl
        · rw [huu] at hus
          simp at hus
      | some (UuidFilter.inSet us) =>
        simp only [huu] at hp
        have h1 := List.mem_of_mem_take hp
        have h2 := (List.perm_insertionSort _ _).mem_iff.mp h1
        obtain ⟨u, hu, hpu⟩ := List.mem_flatMap.mp h2
        obtain ⟨hps, hpd, hm⟩ := mem_similarity_search_with_score hpu
        obtain ⟨huu', _, _⟩ := EqFilter.matches_spec (hm _ rfl)
        refine ⟨p.1, hps, rfl, rfl, by rw [hpd], fun f hf => ?_⟩
        obtain rfl : fd' = f := by simpa using hf
        refine ⟨fun u' hu' => ?_, fun us' hus => ?_⟩
        · rw [huu] at hu'
          simp at hu'
        · rw [huu] at hus
          have he : us = us' := by simpa using hus
          subst he
          have h3 := huu' u rfl
          rw [h3]
          exact hu
      | none =>
        simp only [huu] at hp
        obtain ⟨hps, hpd, _⟩ := mem_similarity_search_with_score hp
        refine ⟨p.1, hps, rfl, rfl, by rw [hpd], fun f hf => ?_⟩
        obtain rfl : fd' = f := by simpa using hf
        refine ⟨fun u' hu' => ?_, fun us' hus => ?_⟩
        · rw [huu] at hu'
          cases hu'
        · rw [huu] at hus
          cases hus

theorem normalizeScore_bounds {s : ℚ} (hs : 0 ≤ s) :
    0 ≤ normalizeScore s ∧ normalizeScore s ≤ 1 := by
  rw [normalizeScore]
  split
  · rename_i h
    constructor
    · exact div_nonneg (by norm_num) (by linarith)
    · rw [div_le_one (by linarith)]
      linarith
  · rename_i h
    exact ⟨hs, not_lt.mp h⟩

theorem min_add_boost {s x y : ℚ} (h0 : 0 ≤ s) (h1 : s ≤ 1)
    (hx : 0 ≤ x) (hy : 0 ≤ y) :
    s ≤ min (s + x + y) 1 ∧ 0 ≤ min (s + x + y) 1 ∧ min (s + x + y) 1 ≤ 1 :=
  ⟨le_min (by linarith) h1, le_min (by linarith) (by norm_num), min_le_right _ _⟩

theorem adjustScore_bounds (terms : List (List Char)) {r : SearchResult}
    (h0 : 0 ≤ r.score) (h1 : r.score ≤ 1) :
    r.score ≤ (adjustScore terms r).score ∧
      0 ≤ (adjustScore terms r).score ∧ (adjustScore terms r).score ≤ 1 := by
  rw [adjustScore_score_eq]
  exact min_add_boost h0 h1
    (mul_nonneg (by positivity) (by norm_num))
    (mul_nonneg (by positivity) (by norm_num))

theorem mem_re_rank {results : List SearchResult} {query : String} {r : SearchResult}
    (hr : r ∈ re_rank_results results query) :
    ∃ r₀ ∈ results, r = adjustScore (queryTermsOf query) r₀ := by
  rw [re_rank_results_eq] at hr
  have h1 := (List.perm_insertionSort _ _).mem_iff.mp hr
  obtain ⟨r₀, hr₀, hrr⟩ := List.mem_map.mp h1
  exact ⟨r₀, hr₀, hrr.symm⟩

theorem specAdjustedScore_eq (query : String) (r : SearchResult) :
    specAdjustedScore query r =
      min (r.score +
        (((queryTermsOf query).filter
            (fun t => (splitWs (lowerChars r.content.data)).contains t)).length : ℚ) *
          (5 / 100) +
        (((queryTermsOf query).filter
            (fun t => (splitWs (upToDoubleNl (lowerChars r.content.data))).contains t)).length : ℚ) *
          (1 / 10)) 1 := rfl

theorem intercalate_cons_cons (sep a b : List Char) (t : List (List Char)) :
    sep.intercalate (a :: b :: t) = a ++ sep ++ sep.intercalate (b :: t) := by
  simp [List.intercalate, List.intersperse]

theorem length_intercalate (sep : List Char) : ∀ l : List (List Char),
    (sep.intercalate l).length = (l.map List.length).sum + sep.length * (l.length - 1)
  | [] => by simp [List.intercalate]
  | [a] => by simp [List.intercalate, List.intersperse]
  | a :: b :: t => by
    rw [intercalate_cons_cons, List.length_append, List.length_append,
      length_intercalate sep (b :: t)]
    simp only [List.map_cons, List.sum_cons, List.length_cons, Nat.add_sub_cancel]
    ring

theorem contextParts_take : ∀ (rs : List SearchResult) (total : ℕ),
    ∃ i, contextParts rs total = (rs.take i).map chunkTextOf
  | [], _ => ⟨0, rfl⟩
  | r :: rest, total => by
    rw [contextParts]
    split
    · exact ⟨0, rfl⟩
    · obtain ⟨i, hi⟩ := contextParts_take rest (total + (chunkTextOf r).length)
      exact ⟨i + 1, by rw [hi]; rfl⟩

theorem contextParts_budget : ∀ (rs : List SearchResult) (total : ℕ),
    total + ((contextParts rs total).map List.length).sum ≤ 2000 ∨
      contextParts rs total = []
  | [], _ => Or.inr rfl
  | r :: rest, total => by
    rw [contextParts]
    split
    · exact Or.inr rfl
    · rename_i hle
      left
      rcases contextParts_budget rest (total + (chunkTextOf r).length) with h | h
      · simp only [List.map_cons, List.sum_cons]
        omega
      · rw [h]
        simp only [List.map_cons, List.map_nil, List.sum_cons, List.sum_nil]
        omega

/-! ## Claims -/

/-- C9: for every session id passed to the scope resolver, a missing
session, a session with no attached documents, and a raising lookup all
resolve to `none` (no restriction) rather than an error or an empty set, and
the subsequent hybrid search then runs exactly as an unrestricted search. -/
theorem session_scope_fail_open (lk : SessionLookup)
    (h : lk = SessionLookup.missing ∨ lk = SessionLookup.raises ∨
      lk = SessionLookup.found []) :
    get_session_document_filter lk = none ∧
    ∀ (store : List Chunk) (dist : Chunk → ℚ) (k : ℕ) (qf : Option FilterDict),
      perform_hybrid_search store dist k (get_session_document_filter lk) qf =
        similarity_search store dist k qf := by
  rcases h with rfl | rfl | rfl <;> exact ⟨rfl, fun _ _ _ _ => rfl⟩

/-- Witness for C9 at the missing-session case and a concrete search. -/
theorem session_scope_fail_open_witness :
    get_session_document_filter SessionLookup.missing = none ∧
    perform_hybrid_search exStore3 zeroDist 3
        (get_session_document_filter SessionLookup.missing) none =
      similarity_search exStore3 zeroDist 3 none :=
  ⟨(session_scope_fail_open SessionLookup.missing (Or.inl rfl)).1,
   (session_scope_fail_open SessionLookup.missing (Or.inl rfl)).2 exStore3 zeroDist 3 none⟩

/-- C10: re-ranking is a frame-preserving permutation — the output has the
same length as the input, is a permutation of the per-result score
adjustments of the input, and every output result is some input result with
content and metadata unchanged (only the score is modified). -/
theorem re_rank_frame (results : List SearchResult) (query : String) :
    (re_rank_results results query).length = results.length ∧
    (re_rank_results results query).Perm
      (results.map (adjustScore (queryTermsOf query))) ∧
    ∀ r ∈ re_rank_results results query, ∃ r₀ ∈ results,
      r.content = r₀.content ∧ r.metadata = r₀.metadata ∧
      r = adjustScore (queryTermsOf query) r₀ := by
  have hperm : (re_rank_results results query).Perm
      (results.map (adjustScore (queryTermsOf query))) := by
    rw [re_rank_results_eq]
    exact List.perm_insertionSort _ _
  refine ⟨by rw [hperm.length_eq, List.length_map], hperm, fun r hr => ?_⟩
  have := hperm.mem_iff.mp hr
  obtain ⟨r₀, hr₀, hrr⟩ := List.mem_map.mp this
  exact ⟨r₀, hr₀, by rw [← hrr]; rfl, by rw [← hrr]; rfl, hrr.symm⟩

/-- C5: scores produced by the store search lie in `[0, 1]` whenever raw
distances are nonnegative, and the re-ranking adjustment never decreases a
score and keeps it in `[0, 1]`. -/
theorem score_bound_and_monotonicity (store : List Chunk) (dist : Chunk → ℚ)
    (k : ℕ) (fd : Option FilterDict) (terms : List (List Char)) (r : SearchResult)
    (hdist : ∀ c, 0 ≤ dist c) (h0 : 0 ≤ r.score) (h1 : r.score ≤ 1) :
    (∀ s ∈ similarity_search store dist k fd, 0 ≤ s.score ∧ s.score ≤ 1) ∧
    (r.score ≤ (adjustScore terms r).score ∧
      0 ≤ (adjustScore terms r).score ∧ (adjustScore terms r).score ≤ 1) := by
  refine ⟨fun s hs => ?_, adjustScore_bounds terms h0 h1⟩
  obtain ⟨c, _, _, _, hscore, _⟩ := mem_similarity_search hs
  rw [hscore]
  exact normalizeScore_bounds (hdist c)

/-- Witness for C5 at a concrete store, distance assignment and result. -/
theorem score_bound_and_monotonicity_witness :
    ((∀ c, 0 ≤ zeroDist c) ∧ 0 ≤ rCat.score ∧ rCat.score ≤ 1) ∧
    ((∀ s ∈ similarity_search exStore3 zeroDist 3 none, 0 ≤ s.score ∧ s.score ≤ 1) ∧
      (rCat.score ≤ (adjustScore [] rCat).score ∧
        0 ≤ (adjustScore [] rCat).score ∧ (adjustScore [] rCat).score ≤ 1)) :=
  have hd : ∀ c, 0 ≤ zeroDist c := fun _ => le_refl 0
  have h0 : 0 ≤ rCat.score := le_refl 0
  have h1 : rCat.score ≤ 1 := by norm_num [rCat]
  ⟨⟨hd, h0, h1⟩,
    score_bound_and_monotonicity exStore3 zeroDist 3 none [] rCat hd h0 h1⟩

/-- C1: every result of a hybrid search scoped to a non-empty session
document list has its `uuid_filename` inside that list, in the single-id
equality case as well as in the multi-id `$in` case. -/
theorem scope_containment (store : List Chunk) (dist : Chunk → ℚ) (k : ℕ)
    (scope : List String) (qf : Option FilterDict) (hscope : scope ≠ []) :
    ∀ r ∈ perform_hybrid_search store dist k (some scope) qf,
      r.metadata.uuid_filename ∈ scope := by
  intro r hr
  match scope, hscope with
  | u :: rest, _ =>
    rw [perform_hybrid_search] at hr
    obtain ⟨c, _, _, _, _, hfilt⟩ := mem_similarity_search hr
    obtain ⟨heq, hin⟩ := hfilt _ rfl
    rw [sessionFilterDict] at heq hin
    by_cases hrest : rest.isEmpty
    · have hu := heq u (by rw [if_pos hrest])
      rw [hu]
      exact List.mem_cons_self u rest
    · exact hin (u :: rest) (by rw [if_neg hrest])

/-- Witness for C1: a two-document scope over the three-chunk store, checked
on the first returned result. -/
theorem scope_containment_witness :
    (["A", "B"] : List String) ≠ [] ∧
    ∀ r ∈ perform_hybrid_search exStore3 zeroDist 3 (some ["A", "B"]) none,
      r.metadata.uuid_filename ∈ ["A", "B"] :=
  ⟨by decide, scope_containment exStore3 zeroDist 3 ["A", "B"] none (by decide)⟩

/-- C4 as stated is false: with the three-chunk store (two chunks of `A`,
one of `B`) and a filter selecting `B`, requesting `k = 2` passes `k = 2` to
the underlying index, which exceeds `min(requested_k,
totalChunksMatchingFilter) = 1` — the code clamps to the total store size,
not to the matching-chunk count. -/
theorem k_clamping_cex :
    ¬ (1 ≤ clampedK exStore3 2 ∧
       clampedK exStore3 2 ≤ min 2 (matchingCount exStore3 (some exFilterB))) := by
  decide

/-- C4 amended: the `k` passed to the underlying index is
`min(requested_k, totalChunksInStore)` (no lower clamp to 1, no dependence on
the filter); at most that many results are returned; and a search against an
empty store returns `[]` without error. -/
theorem k_clamping_amended (store : List Chunk) (dist : Chunk → ℚ) (k : ℕ)
    (fd : Option FilterDict) :
    clampedK store k = min k store.length ∧
    (store = [] → similarity_search store dist k fd = []) ∧
    (similarity_search store dist k fd).length ≤ min k store.length := by
  refine ⟨rfl, fun hs => by rw [similarity_search, hs]; rfl, ?_⟩
  rw [similarity_search]
  by_cases hlen : store.length = 0
  · simp [hlen]
  · have hle : ∀ f : Option EqFilter,
        (similarity_search_with_score store dist (clampedK store k) f).length ≤
          min k store.length := by
      intro f
      rw [similarity_search_with_score]
      exact List.length_take_le _ _
    simp only [if_neg hlen, List.length_map]
    match fd with
    | none => exact hle none
    | some fd' =>
      match huu : fd'.uuid_filename with
      | some (UuidFilter.eqv u) =>
        simp only [huu]
        exact hle _
      | some (UuidFilter.inSet us) =>
        simp only [huu]
        exact List.length_take_le _ _
      | none =>
        simp only [huu]
        exact hle _

/-- Witness for C4 amended: empty store returns `[]`; a `k` larger than the
store is clamped to the store size. -/
theorem k_clamping_amended_witness :
    clampedK exStore3 100 = min 100 exStore3.length ∧
    (([] : List Chunk) = [] → similarity_search [] zeroDist 100 none = []) ∧
    (similarity_search exStore3 zeroDist 100 none).length ≤ min 100 exStore3.length :=
  ⟨(k_clamping_amended exStore3 zeroDist 100 none).1,
   (k_clamping_amended [] zeroDist 100 none).2.1,
   (k_clamping_amended exStore3 zeroDist 100 none).2.2⟩

/-- C6 as stated is false: the code tests each query term with Python's
substring operator `in`, not token intersection.  For the query `cat` and a
chunk whose only token is `concatenation`, the code boosts the score to
`0.15` while the claimed token-intersection formula leaves it at `0`. -/
theorem re_rank_formula_cex :
    re_rank_results [rCat] "cat" = [{ rCat with score := 3 / 20 }] ∧
    specAdjustedScore "cat" rCat = 0 ∧ (3 / 20 : ℚ) ≠ 0 := by
  refine ⟨?_, ?_, by norm_num⟩
  · rw [re_rank_results_eq]
    have h1 : [rCat].map (adjustScore (queryTermsOf "cat")) =
        [adjustScore (queryTermsOf "cat") rCat] := rfl
    have h2 : List.insertionSort (fun a b : SearchResult => b.score ≤ a.score)
        [adjustScore (queryTermsOf "cat") rCat] =
        [adjustScore (queryTermsOf "cat") rCat] := rfl
    rw [h1, h2]
    have hsc : (adjustScore (queryTermsOf "cat") rCat).score = 3 / 20 := by
      rw [adjustScore_score_eq]
      have hkm : ((queryTermsOf "cat").filter
          (fun t => subOccurs t (lowerChars rCat.content.data))).length = 1 := by decide
      have hfm : ((queryTermsOf "cat").filter
          (fun t => subOccurs t (upToDoubleNl (lowerChars rCat.content.data)))).length = 1 := by
        decide
      rw [hkm, hfm, show rCat.score = (0 : ℚ) from rfl]
      norm_num
    have hel : adjustScore (queryTermsOf "cat") rCat = { rCat with score := 3 / 20 } := by
      calc adjustScore (queryTermsOf "cat") rCat
          = ⟨rCat.content, rCat.metadata, (adjustScore (queryTermsOf "cat") rCat).score⟩ := rfl
        _ = ⟨rCat.content, rCat.metadata, 3 / 20⟩ := by rw [hsc]
        _ = { rCat with score := 3 / 20 } := rfl
    rw [hel]
  · rw [specAdjustedScore_eq]
    have hkm : ((queryTermsOf "cat").filter
        (fun t => (splitWs (lowerChars rCat.content.data)).contains t)).length = 0 := by decide
    have hfm : ((queryTermsOf "cat").filter
        (fun t => (splitWs (upToDoubleNl (lowerChars rCat.content.data))).contains t)).length
        = 0 := by decide
    rw [hkm, hfm, show rCat.score = (0 : ℚ) from rfl]
    norm_num

/-- C6 amended: the adjusted score is
`min(1, raw + 0.05*keywordCount + 0.10*firstParagraphCount)` where the
counts are over the distinct lower-cased question tokens occurring as
*substrings* of the lower-cased chunk text (respectively its first
paragraph), and the result list is sorted in descending order of the
adjusted score. -/
theorem re_rank_formula_amended (results : List SearchResult) (query : String) :
    List.Sorted (fun a b : SearchResult => b.score ≤ a.score)
      (re_rank_results results query) ∧
    ∀ r ∈ re_rank_results results query, ∃ r₀ ∈ results,
      r.content = r₀.content ∧ r.metadata = r₀.metadata ∧
      r.score = min (r₀.score +
        (((queryTermsOf query).filter
            (fun t => subOccurs t (lowerChars r₀.content.data))).length : ℚ) * (5 / 100) +
        (((queryTermsOf query).filter
            (fun t => subOccurs t (upToDoubleNl (lowerChars r₀.content.data)))).length : ℚ) *
          (1 / 10)) 1 := by
  constructor
  · rw [re_rank_results_eq]
    exact List.sorted_insertionSort _ _
  · intro r hr
    obtain ⟨r₀, hr₀, rfl⟩ := mem_re_rank hr
    exact ⟨r₀, hr₀, rfl, rfl, adjustScore_score_eq _ _⟩

/-- C3 as stated is false: the packing loop budgets only the sum of the
labeled chunk lengths, not the `"\n\n---\n\n"` delimiters added by the final
join.  Four results whose labeled chunks are exactly 500 characters each sum
to the full 2000-character budget, so all four are packed and the joined
context is 2021 characters long. -/
theorem context_budget_cex : 2000 < (assembleContext exResults4).length := by
  have h0 : hundredths (0 : ℚ) = 0 := by
    rw [hundredths]
    norm_num
  have hf : fmt2 r470.score = "0.00".data := by
    rw [fmt2, show r470.score = (0 : ℚ) from rfl, h0]
    decide
  have htr : truncateContent r470.content.data = List.replicate 470 'a' := by
    rw [show r470.content.data = List.replicate 470 'a' from rfl, truncateContent, if_neg]
    rw [List.length_replicate]
    omega
  have hct : chunkTextOf r470 =
      "[Source: f | Relevance: 0.00]\n".data ++ List.replicate 470 'a' := by
    rw [chunkTextOf, hf, htr]
    rw [show (']' :: '\n' :: List.replicate 470 'a') =
      "]\n".data ++ List.replicate 470 'a' from rfl]
    simp only [← List.append_assoc]
    congr 1
  have hlen : (chunkTextOf r470).length = 500 := by
    rw [hct, List.length_append, List.length_replicate]
    decide
  have hparts : contextParts exResults4 0 =
      [chunkTextOf r470, chunkTextOf r470, chunkTextOf r470, chunkTextOf r470] := by
    rw [exResults4]
    rw [contextParts, contextParts, contextParts, contextParts, contextParts]
    simp [hlen]
  rw [assembleContext, hparts, length_intercalate]
  simp only [List.map_cons, List.map_nil, List.sum_cons, List.sum_nil, hlen,
    List.length_cons, List.length_nil]
  rw [show contextSep.length = 7 from rfl]
  omega

/-- C3 amended: chunks are packed in re-ranked order and packing stops,
dropping all remaining chunks, as soon as the next labeled chunk would push
the running total past 2000 characters; the *sum of the labeled chunks* is
therefore at most 2000, and the assembled string exceeds the budget only by
the joining delimiters — its length is at most `2000 + 7*(n-1)` for `n`
packed chunks. -/
theorem context_budget_amended (results : List SearchResult) :
    (∃ i, contextParts results 0 = (results.take i).map chunkTextOf) ∧
    ((contextParts results 0).map List.length).sum ≤ 2000 ∧
    (assembleContext results).length ≤
      2000 + contextSep.length * ((contextParts results 0).length - 1) := by
  refine ⟨contextParts_take results 0, ?_, ?_⟩
  · rcases contextParts_budget results 0 with h | h
    · omega
    · rw [h]
      simp
  · rw [assembleContext, length_intercalate]
    have hsum : ((contextParts results 0).map List.length).sum ≤ 2000 := by
      rcases contextParts_budget results 0 with h | h
      · omega
      · rw [h]
        simp
    omega

/-! ## Trace lemmas for the streaming claims -/

theorem emittedEvents_append (a b : List Action) :
    emittedEvents (a ++ b) = emittedEvents a ++ emittedEvents b := by
  simp [emittedEvents, List.filterMap_append]

theorem emittedEvents_addCall : emittedEvents [Action.addCall] = [] := rfl

theorem emittedEvents_nil : emittedEvents [] = [] := rfl

theorem emittedEvents_one (a : Event) : emittedEvents [Action.emit a] = [a] := rfl

theorem emittedEvents_cons_emit (e : Event) (X : List Action) :
    emittedEvents (Action.emit e :: X) = e :: emittedEvents X := rfl

theorem emittedEvents_cons_prov (X : List Action) :
    emittedEvents (Action.providerCall :: X) = emittedEvents X := rfl

theorem emittedEvents_two (a b : Event) :
    emittedEvents [Action.emit a, Action.emit b] = [a, b] := rfl

theorem emittedEvents_attempt (env : GenEnv) :
    emittedEvents (searchAttemptActions env) = [] := by
  rw [searchAttemptActions]
  match h : env.sessionFilter with
  | none => simp only [h]; rfl
  | some [] => simp only [h]; rfl
  | some (u :: rest) => simp only [h]; rfl

theorem emittedEvents_warnIf (b : Bool) (msg : String) :
    emittedEvents (if b then [Action.emit (Event.warning msg)] else []) =
      if b then [Event.warning msg] else [] := by
  cases b <;> rfl

theorem emittedEvents_respMap (l : List String) :
    emittedEvents (l.map (fun s => Action.emit (Event.response s))) =
      l.map (fun s => Event.response s) := by
  induction l with
  | nil => rfl
  | cons a t ih =>
    show Event.response a ::
      emittedEvents (t.map (fun s => Action.emit (Event.response s))) =
      Event.response a :: t.map (fun s => Event.response s)
    rw [ih]

theorem all_isResponse_map (l : List String) :
    (l.map (fun s => Event.response s)).all Event.isResponse = true := by
  induction l with
  | nil => rfl
  | cons a t ih =>
    show ((Event.response a).isResponse &&
      (t.map (fun s => Event.response s)).all Event.isResponse) = true
    rw [ih]
    rfl

theorem all_isWarning_warnIf (b : Bool) (msg : String) :
    (if b then [Event.warning msg] else []).all Event.isWarning = true := by
  cases b <;> rfl

theorem successShape_append {resps : List Event}
    (h : resps.all Event.isResponse = true) (s : List (String × String)) :
    successShape (resps ++ [Event.sources s, Event.done]) = true := by
  induction resps with
  | nil => rfl
  | cons e t ih =>
    simp only [List.all_cons, Bool.and_eq_true] at h
    obtain ⟨h1, h2⟩ := h
    cases e with
    | response c =>
      show ((Event.response c).isResponse &&
        successShape (t ++ [Event.sources s, Event.done])) = true
      rw [ih h2]
      rfl
    | warning c => simp [Event.isResponse] at h1
    | sources s2 => simp [Event.isResponse] at h1
    | done => simp [Event.isResponse] at h1
    | error c => simp [Event.isResponse] at h1

theorem errorShape_append {resps : List Event}
    (h : resps.all Event.isResponse = true) (msg : String) :
    errorShape (resps ++ [Event.error msg]) = true := by
  induction resps with
  | nil => rfl
  | cons e t ih =>
    simp only [List.all_cons, Bool.and_eq_true] at h
    obtain ⟨h1, h2⟩ := h
    cases e with
    | response c =>
      show ((!(Event.response c).isError) && errorShape (t ++ [Event.error msg])) = true
      rw [ih h2]
      rfl
    | warning c => simp [Event.isResponse] at h1
    | sources s2 => simp [Event.isResponse] at h1
    | done => simp [Event.isResponse] at h1
    | error c => simp [Event.isResponse] at h1

theorem claimedShape_success {resps : List Event}
    (h : resps.all Event.isResponse = true) (s : List (String × String)) :
    claimedShape (resps ++ [Event.sources s, Event.done]) = true := by
  rw [claimedShape, successShape_append h]
  rfl

theorem claimedShape_error {resps : List Event}
    (h : resps.all Event.isResponse = true) (msg : String) :
    claimedShape (resps ++ [Event.error msg]) = true := by
  rw [claimedShape, errorShape_append h]
  simp

theorem claimedShape_streamActions (env : GenEnv) (rs : List SearchResult) :
    claimedShape (emittedEvents (streamActions env rs)) = true := by
  rw [streamActions]
  by_cases hm : env.modelOk
  · rw [if_pos hm]
    have hcons : ∀ X : List Action,
        emittedEvents (Action.providerCall :: X) = emittedEvents X := fun _ => rfl
    rw [emittedEvents_append, hcons, emittedEvents_respMap]
    match hse : env.streamEnd with
    | StreamEnd.rateLimitFailure =>
      simp only [hse]
      rw [emittedEvents_one]
      exact claimedShape_error (all_isResponse_map _) _
    | StreamEnd.otherFailure =>
      simp only [hse]
      rw [emittedEvents_one]
      exact claimedShape_error (all_isResponse_map _) _
    | StreamEnd.ok =>
      simp only [hse]
      rw [emittedEvents_append, emittedEvents_respMap, emittedEvents_two,
        ← List.append_assoc]
      refine claimedShape_success ?_ _
      rw [List.all_append, all_isResponse_map, all_isResponse_map]
      rfl
  · rw [if_neg hm, emittedEvents_one]
    exact @claimedShape_error [] rfl _

theorem claimedShape_afterResults (env : GenEnv) (rs : List SearchResult) :
    claimedShape (emittedEvents (afterResults env rs)) = true := by
  simp only [afterResults]
  split
  · rw [emittedEvents_one]
    exact @claimedShape_error [] rfl _
  · exact claimedShape_streamActions env _

/-- C2 as stated is false: the stream can also carry `warning` events, which
the claimed shape (responses, then sources, then done, or a terminal error)
does not allow.  An execution that hits the entry rate-limit check emits a
warning before an otherwise ordinary successful stream. -/
theorem event_stream_cex :
    claimedShape (generateResponseEvents cexEnvC2) = false ∧
    generateResponseEvents cexEnvC2 =
      [Event.warning "Gemini API rate limit reached. Please wait before trying again.",
       Event.response "Hi", Event.sources [("a.pdf", "1")], Event.done] := by
  constructor <;> decide

/-- C2 amended: every event stream of `generate_response` is a (possibly
empty) prefix of warning events followed by a core that has exactly the
claimed shape — zero or more responses then exactly one sources and one done
event, or a terminal error that is the last event of the stream. -/
theorem event_stream_order (env : GenEnv) :
    ∃ ws core, generateResponseEvents env = ws ++ core ∧
      ws.all Event.isWarning = true ∧ claimedShape core = true := by
  rw [generateResponseEvents, generateResponseActions]
  simp only [emittedEvents_append, emittedEvents_addCall, emittedEvents_attempt,
    emittedEvents_warnIf, emittedEvents_one, List.nil_append, List.append_nil]
  match h1 : env.searchFailure1 with
  | none =>
    refine ⟨(if env.rateLimitedAtStart then
        [Event.warning "Gemini API rate limit reached. Please wait before trying again."]
      else []) ++
      (if env.tokenWarning then
        [Event.warning "Approaching Gemini API limits. Slowing down requests."]
      else []),
      emittedEvents (afterResults env (envSearch env)), ?_, ?_, ?_⟩
    · simp [List.append_assoc]
    · rw [List.all_append, all_isWarning_warnIf, all_isWarning_warnIf]
      rfl
    · exact claimedShape_afterResults env _
  | some true =>
    match h2 : env.searchFailure2 with
    | none =>
      refine ⟨(if env.rateLimitedAtStart then
          [Event.warning "Gemini API rate limit reached. Please wait before trying again."]
        else []) ++
        (if env.tokenWarning then
          [Event.warning "Approaching Gemini API limits. Slowing down requests."]
        else []) ++
        [Event.warning "Rate limit reached during search. Waiting and retrying..."],
        emittedEvents (afterResults env (envSearch env)), ?_, ?_, ?_⟩
      · simp [List.append_assoc, emittedEvents_cons_emit, emittedEvents_append,
          emittedEvents_attempt, emittedEvents_one, emittedEvents_nil]
      · rw [List.all_append, List.all_append, all_isWarning_warnIf, all_isWarning_warnIf]
        rfl
      · exact claimedShape_afterResults env _
    | some b2 =>
      refine ⟨(if env.rateLimitedAtStart then
          [Event.warning "Gemini API rate limit reached. Please wait before trying again."]
        else []) ++
        (if env.tokenWarning then
          [Event.warning "Approaching Gemini API limits. Slowing down requests."]
        else []) ++
        [Event.warning "Rate limit reached during search. Waiting and retrying..."],
        [Event.error "Error in RAG pipeline"], ?_, ?_, ?_⟩
      · simp [List.append_assoc, emittedEvents_cons_emit, emittedEvents_append,
          emittedEvents_attempt, emittedEvents_one, emittedEvents_nil]
      · rw [List.all_append, List.all_append, all_isWarning_warnIf, all_isWarning_warnIf]
        rfl
      · exact @claimedShape_error [] rfl _
  | some false =>
    refine ⟨(if env.rateLimitedAtStart then
        [Event.warning "Gemini API rate limit reached. Please wait before trying again."]
      else []) ++
      (if env.tokenWarning then
        [Event.warning "Approaching Gemini API limits. Slowing down requests."]
      else []),
      [Event.error "Error in RAG pipeline"], ?_, ?_, ?_⟩
    · simp [List.append_assoc, emittedEvents_cons_emit, emittedEvents_append,
        emittedEvents_attempt, emittedEvents_one, emittedEvents_nil]
    · rw [List.all_append, all_isWarning_warnIf, all_isWarning_warnIf]
      rfl
    · exact @claimedShape_error [] rfl _

/-! ## Rate-gate admission lemmas -/

theorem countAdd_append (a b : List Action) :
    countAddCalls (a ++ b) = countAddCalls a + countAddCalls b := by
  simp [countAddCalls, List.filter_append]

theorem countProv_append (a b : List Action) :
    countProviderCalls (a ++ b) = countProviderCalls a + countProviderCalls b := by
  simp [countProviderCalls, List.filter_append]

theorem countAdd_warnIf (b : Bool) (msg : String) :
    countAddCalls (if b then [Action.emit (Event.warning msg)] else []) = 0 := by
  cases b <;> rfl

theorem countProv_warnIf (b : Bool) (msg : String) :
    countProviderCalls (if b then [Action.emit (Event.warning msg)] else []) = 0 := by
  cases b <;> rfl

theorem countAdd_attempt (env : GenEnv) :
    countAddCalls (searchAttemptActions env) =
      if sessionFilterTruthy env = true then 0 else 1 := by
  rw [searchAttemptActions, sessionFilterTruthy]
  match h : env.sessionFilter with
  | none => simp only [h]; rfl
  | some [] => simp only [h]; rfl
  | some (u :: rest) => simp only [h]; rfl

theorem countProv_attempt (env : GenEnv) :
    countProviderCalls (searchAttemptActions env) = 0 := by
  rw [searchAttemptActions]
  match h : env.sessionFilter with
  | none => simp only [h]; rfl
  | some [] => simp only [h]; rfl
  | some (u :: rest) => simp only [h]; rfl

theorem countAdd_respMap (l : List String) :
    countAddCalls (l.map (fun s => Action.emit (Event.response s))) = 0 := by
  induction l with
  | nil => rfl
  | cons a t ih => exact ih

theorem countProv_respMap (l : List String) :
    countProviderCalls (l.map (fun s => Action.emit (Event.response s))) = 0 := by
  induction l with
  | nil => rfl
  | cons a t ih => exact ih

theorem countAdd_cons_prov (X : List Action) :
    countAddCalls (Action.providerCall :: X) = countAddCalls X := rfl

theorem countProv_cons_prov (X : List Action) :
    countProviderCalls (Action.providerCall :: X) = countProviderCalls X + 1 := rfl

theorem countAdd_nil : countAddCalls [] = 0 := rfl

theorem countProv_nil : countProviderCalls [] = 0 := rfl

theorem countAdd_addCall : countAddCalls [Action.addCall] = 1 := rfl

theorem countProv_addCall : countProviderCalls [Action.addCall] = 0 := rfl

theorem countAdd_one (e : Event) : countAddCalls [Action.emit e] = 0 := rfl

theorem countProv_one (e : Event) : countProviderCalls [Action.emit e] = 0 := rfl

theorem countAdd_two (a b : Event) :
    countAddCalls [Action.emit a, Action.emit b] = 0 := rfl

theorem countProv_two (a b : Event) :
    countProviderCalls [Action.emit a, Action.emit b] = 0 := rfl

theorem countAdd_cons_emit (e : Event) (X : List Action) :
    countAddCalls (Action.emit e :: X) = countAddCalls X := rfl

theorem countProv_cons_emit (e : Event) (X : List Action) :
    countProviderCalls (Action.emit e :: X) = countProviderCalls X := rfl

theorem countAdd_afterResults (env : GenEnv) (rs : List SearchResult) :
    countAddCalls (afterResults env rs) = 0 := by
  simp only [afterResults]
  split
  · rfl
  · rw [streamActions]
    by_cases hm : env.modelOk
    · rw [if_pos hm, countAdd_append, countAdd_cons_prov, countAdd_respMap]
      match hse : env.streamEnd with
      | StreamEnd.rateLimitFailure => simp only [hse, countAdd_one]
      | StreamEnd.otherFailure => simp only [hse, countAdd_one]
      | StreamEnd.ok =>
        simp only [hse]
        rw [countAdd_append, countAdd_respMap, countAdd_two]
    · rw [if_neg hm]
      rfl

theorem countProv_afterResults (env : GenEnv) (rs : List SearchResult) :
    countProviderCalls (afterResults env rs) ≤ 1 := by
  simp only [afterResults]
  split
  · exact Nat.zero_le 1
  · rw [streamActions]
    by_cases hm : env.modelOk
    · rw [if_pos hm, countProv_append, countProv_cons_prov, countProv_respMap]
      match hse : env.streamEnd with
      | StreamEnd.rateLimitFailure => simp only [hse, countProv_one]; omega
      | StreamEnd.otherFailure => simp only [hse, countProv_one]; omega
      | StreamEnd.ok =>
        simp only [hse]
        rw [countProv_append, countProv_respMap, countProv_two]
    · rw [if_neg hm]
      exact Nat.zero_le 1

/-- C8 as stated is false: with an empty store the request records a limiter
call (`add_call` runs near the top of `generate_response`, before retrieval)
and then terminates on the empty result set without ever invoking the
provider — one admission, zero provider calls, and the admission is not
immediately followed by the provider invocation. -/
theorem rate_gate_cex :
    countAddCalls (generateResponseActions cexEnvC8) = 1 ∧
    countProviderCalls (generateResponseActions cexEnvC8) = 0 ∧
    addCallsImmediatelyBeforeProvider (generateResponseActions cexEnvC8) = false := by
  refine ⟨?_, ?_, ?_⟩ <;> decide

/-- C8 amended: `add_call` is recorded exactly once per execution at the top
of the Gemini branch — before retrieval and regardless of whether the
provider is ever invoked — plus once per rate-limited
`_extract_query_metadata` invocation (one per search attempt when no truthy
session filter is present); at most one provider streaming call is issued,
and the first admission precedes every retrieval and provider invocation. -/
theorem rate_gate_admission (env : GenEnv) :
    countAddCalls (generateResponseActions env) =
      1 + (if sessionFilterTruthy env = true then 0 else numSearchAttempts env) ∧
    countProviderCalls (generateResponseActions env) ≤ 1 ∧
    ∃ pre post, generateResponseActions env = pre ++ Action.addCall :: post ∧
      ∀ a ∈ pre, a ≠ Action.retrieve ∧ a ≠ Action.providerCall := by
  refine ⟨?_, ?_, ?_⟩
  · rw [generateResponseActions]
    match h1 : env.searchFailure1 with
    | none =>
      simp only [countAdd_append, countAdd_warnIf, countAdd_attempt, countAdd_addCall,
        countAdd_afterResults, numSearchAttempts, h1]
      by_cases ht : sessionFilterTruthy env = true <;> (simp [ht, countAdd_nil]; try omega)
    | some true =>
      simp only [countAdd_append, countAdd_warnIf, countAdd_attempt, countAdd_addCall,
        countAdd_cons_emit, countAdd_one, numSearchAttempts]
      match h2 : env.searchFailure2 with
      | none =>
        simp only [countAdd_append, countAdd_attempt, countAdd_afterResults,
          countAdd_cons_emit, countAdd_one, numSearchAttempts, h1]
        by_cases ht : sessionFilterTruthy env = true <;> (simp [ht, countAdd_nil]; try omega)
      | some b2 =>
        simp only [countAdd_append, countAdd_attempt, countAdd_cons_emit, countAdd_one,
          numSearchAttempts, h1]
        by_cases ht : sessionFilterTruthy env = true <;> (simp [ht, countAdd_nil]; try omega)
    | some false =>
      simp only [countAdd_append, countAdd_warnIf, countAdd_attempt, countAdd_addCall,
        countAdd_one, numSearchAttempts, h1]
      by_cases ht : sessionFilterTruthy env = true <;> (simp [ht, countAdd_nil]; try omega)
  · rw [generateResponseActions]
    match h1 : env.searchFailure1 with
    | none =>
      have hle := countProv_afterResults env (envSearch env)
      simp only [countProv_append, countProv_warnIf, countProv_attempt, countProv_addCall,
        countProv_nil]
      omega
    | some true =>
      match h2 : env.searchFailure2 with
      | none =>
        have hle := countProv_afterResults env (envSearch env)
        simp only [countProv_append, countProv_warnIf, countProv_attempt,
          countProv_addCall, countProv_cons_emit, countProv_one, countProv_nil]
        omega
      | some b2 =>
        simp only [countProv_append, countProv_warnIf, countProv_attempt,
          countProv_addCall, countProv_cons_emit, countProv_one, countProv_nil]
        omega
    | some false =>
      simp only [countProv_append, countProv_warnIf, countProv_attempt,
        countProv_addCall, countProv_one, countProv_nil]
      omega
  · by_cases hb : env.rateLimitedAtStart
    · exact ⟨[Action.emit (Event.warning
        "Gemini API rate limit reached. Please wait before trying again.")], _,
        by rw [generateResponseActions, if_pos hb]; exact rfl, by simp⟩
    · exact ⟨[], _, by rw [generateResponseActions, if_neg hb]; exact rfl, by simp⟩

/-! ## Sentence-segmentation machinery -/

theorem foldl_append_data (acc : String) : ∀ l : List String,
    (l.foldl (fun r s => r ++ s) acc).data = acc.data ++ (l.map String.data).flatten
  | [] => by simp
  | s :: t => by
    rw [List.foldl_cons, foldl_append_data (acc ++ s) t]
    have hap : (acc ++ s).data = acc.data ++ s.data := rfl
    simp [hap]

theorem join_data (l : List String) :
    (String.join l).data = (l.map String.data).flatten := by
  rw [String.join, foldl_append_data]
  rfl

set_option maxHeartbeats 4000000 in
theorem c7Check_true : c7Check = true := by decide

theorem step_seg {n m : ℕ} (hnm : n ≤ m) (hm : m < 32) :
    stepChunk (stateAt n).2 (segChars n m) =
      ((stateAt m).1.drop (stateAt n).1.length, (stateAt m).2) ∧
    (stateAt n).1 ++ (stateAt m).1.drop (stateAt n).1.length = (stateAt m).1 := by
  have h := c7Check_true
  rw [c7Check, List.all_eq_true] at h
  have h1 := h n (List.mem_range.mpr (lt_of_le_of_lt hnm hm))
  rw [List.all_eq_true] at h1
  have h2 := h1 m (List.mem_range.mpr hm)
  rw [Bool.or_eq_true, Bool.and_eq_true] at h2
  rcases h2 with h2 | ⟨ha, hb⟩
  · exact absurd (of_decide_eq_true h2) (by omega)
  · exact ⟨of_decide_eq_true ha, of_decide_eq_true hb⟩

set_option maxHeartbeats 1600000 in
theorem runChunks_decomp : ∀ (cls : List (List Char)) (n : ℕ), n ≤ 31 →
    cls.flatten = sTextChars.drop n →
    runChunks (stateAt n).2 cls =
      ((stateAt 31).1.drop (stateAt n).1.length, (stateAt 31).2)
  | [], n, hn, hflat => by
    have hlen : sTextChars.length = 31 := by decide
    have hn31 : n = 31 := by
      have h := congrArg List.length hflat
      simp only [List.flatten_nil, List.length_nil, List.length_drop, hlen] at h
      omega
    subst hn31
    show (([] : List String), (stateAt 31).2) =
      ((stateAt 31).1.drop (stateAt 31).1.length, (stateAt 31).2)
    rw [List.drop_length]
  | c :: cls, n, hn, hflat => by
    rw [List.flatten_cons] at hflat
    have hlen : sTextChars.length = 31 := by decide
    have hclen : c.length + cls.flatten.length = 31 - n := by
      have h := congrArg List.length hflat
      simp only [List.length_append, List.length_drop, hlen] at h
      omega
    have hm : n + c.length ≤ 31 := by omega
    have hc : c = segChars n (n + c.length) := by
      rw [segChars, ← hflat, Nat.add_sub_cancel_left, List.take_left]
    have hrest : cls.flatten = sTextChars.drop (n + c.length) := by
      have hdd : (sTextChars.drop n).drop c.length = sTextChars.drop (n + c.length) := by
        rw [List.drop_drop]
      rw [← hdd, ← hflat, List.drop_left]
    obtain ⟨hstep, happ⟩ := step_seg (Nat.le_add_right n c.length) (by omega)
    obtain ⟨-, happ31⟩ := step_seg hm (by omega)
    rw [← hc] at hstep
    have hIH := runChunks_decomp cls (n + c.length) hm hrest
    have hkey : (stateAt (n + c.length)).1.drop (stateAt n).1.length ++
        (stateAt 31).1.drop (stateAt (n + c.length)).1.length =
        (stateAt 31).1.drop (stateAt n).1.length := by
      have h1 : (stateAt n).1 ++
          ((stateAt (n + c.length)).1.drop (stateAt n).1.length ++
            (stateAt 31).1.drop (stateAt (n + c.length)).1.length) = (stateAt 31).1 := by
        rw [← List.append_assoc, happ, happ31]
      calc (stateAt (n + c.length)).1.drop (stateAt n).1.length ++
            (stateAt 31).1.drop (stateAt (n + c.length)).1.length
          = ((stateAt n).1 ++
              ((stateAt (n + c.length)).1.drop (stateAt n).1.length ++
                (stateAt 31).1.drop (stateAt (n + c.length)).1.length)).drop
              (stateAt n).1.length := (List.drop_left _ _).symm
        _ = (stateAt 31).1.drop (stateAt n).1.length := by rw [h1]
    have hA1 : (stepChunk (stateAt n).2 c).1 =
        (stateAt (n + c.length)).1.drop (stateAt n).1.length := by rw [hstep]
    have hA2 : (stepChunk (stateAt n).2 c).2 = (stateAt (n + c.length)).2 := by rw [hstep]
    have hB : runChunks (stepChunk (stateAt n).2 c).2 cls =
        ((stateAt 31).1.drop (stateAt (n + c.length)).1.length, (stateAt 31).2) := by
      rw [hA2]
      exact hIH
    have hB1 : (runChunks (stepChunk (stateAt n).2 c).2 cls).1 =
        (stateAt 31).1.drop (stateAt (n + c.length)).1.length := by rw [hB]
    have hB2 : (runChunks (stepChunk (stateAt n).2 c).2 cls).2 = (stateAt 31).2 := by
      rw [hB]
    show ((stepChunk (stateAt n).2 c).1 ++ (runChunks (stepChunk (stateAt n).2 c).2 cls).1,
      (runChunks (stepChunk (stateAt n).2 c).2 cls).2) = _
    rw [Prod.mk.injEq]
    exact ⟨by rw [hA1, hB1, hkey], hB2⟩

/-- C7: delivering the text `"Hello world. How are you? Fine."` through the
provider stream in any tokenization whatsoever makes the orchestrator emit
exactly three response events — the two complete sentences flushed trimmed
with a trailing space, and the final buffered fragment flushed trimmed at
end of stream — before the sources and done events. -/
theorem sentence_segmentation (chunks : List String)
    (h : String.join chunks = "Hello world. How are you? Fine.") :
    streamResponses chunks = ["Hello world. ", "How are you? ", "Fine."] ∧
    generateResponseEvents (c7Env chunks) =
      [Event.response "Hello world. ", Event.response "How are you? ",
       Event.response "Fine.", Event.sources [("a.pdf", "1")], Event.done] := by
  have hdata : (chunks.map String.data).flatten = sTextChars := by
    have h2 := congrArg String.data h
    rw [join_data] at h2
    exact h2
  have hrun : runChunks [] (chunks.map String.data) =
      ((stateAt 31).1, (stateAt 31).2) := by
    have h0 := runChunks_decomp (chunks.map String.data) 0 (by omega)
      (by rw [hdata]; rfl)
    have e2 : (stateAt 0).2 = [] := rfl
    have e1 : (stateAt 0).1.length = 0 := rfl
    rw [e2, e1, List.drop_zero] at h0
    exact h0
  have hmid : midResponses chunks = ["Hello world. ", "How are you? "] := by
    rw [midResponses, hrun]
    decide
  have hfin : finalFlush (runChunks [] (chunks.map String.data)).2 = ["Fine."] := by
    rw [hrun]
    decide
  constructor
  · simp only [streamResponses]
    rw [hrun]
    decide
  · rw [generateResponseEvents, generateResponseActions]
    simp only [show (c7Env chunks).rateLimitedAtStart = false from rfl,
      show (c7Env chunks).tokenWarning = false from rfl,
      show (c7Env chunks).searchFailure1 = (none : Option Bool) from rfl,
      Bool.false_eq_true, if_false, List.nil_append,
      emittedEvents_append, emittedEvents_addCall, emittedEvents_attempt]
    simp only [afterResults]
    rw [show (c7Env chunks).question = "q" from rfl,
      show envSearch (c7Env chunks) = envSearch (c7Env []) from rfl,
      if_neg (by decide :
        ¬(re_rank_results (envSearch (c7Env [])) "q").isEmpty = true)]
    rw [streamActions, if_pos (show (c7Env chunks).modelOk = true from rfl)]
    rw [emittedEvents_append, emittedEvents_cons_prov]
    rw [show (c7Env chunks).chunks = chunks from rfl,
      show (c7Env chunks).streamEnd = StreamEnd.ok from rfl]
    rw [emittedEvents_respMap, emittedEvents_append, emittedEvents_respMap,
      emittedEvents_two]
    rw [hmid, hfin]
    decide

/-- Witness for C7 at the single-chunk tokenization of the claim's text. -/
theorem sentence_segmentation_witness :
    String.join ["Hello world. How are you? Fine."] =
      "Hello world. How are you? Fine." ∧
    (streamResponses ["Hello world. How are you? Fine."] =
      ["Hello world. ", "How are you? ", "Fine."] ∧
     generateResponseEvents (c7Env ["Hello world. How are you? Fine."]) =
      [Event.response "Hello world. ", Event.response "How are you? ",
       Event.response "Fine.", Event.sources [("a.pdf", "1")], Event.done]) :=
  ⟨by decide, sentence_segmentation ["Hello world. How are you? Fine."] (by decide)⟩

end StudyBuddy
